import Mathlib

/-!
Verification of the HTML-Cleaner repository (`src/html_cleaner.py`).

The development shallowly embeds the `HTMLCleaner` parser class and the
`remove_empty_tags` post-processing function.  Python attribute lists
`[(name, value_or_None), ...]` become `List (String × Option String)`;
the parser's mutable fields become a state structure threaded through the
event handlers; the tokenizer's callbacks become an `Event` datatype and a
fold.  The two regular expressions used by `remove_empty_tags` are embedded
as deterministic scanners (both patterns are backtracking-free except for
the trailing `\s*$` of the multiline orphan pattern, which is modelled by
an explicit greedy search for the `$` position).
-/

set_option maxRecDepth 20000

/-- Attribute as delivered by Python's HTMLParser: name and optional value. -/
abbrev Attr := String × Option String

namespace HTMLCleaner

/-- Media tags that are self-closing (`SELF_CLOSING_MEDIA_TAGS`). -/
def SELF_CLOSING_MEDIA_TAGS : List String := ["img", "source", "track", "embed"]

/-- Media tags that typically have content (`MEDIA_TAGS_WITH_CONTENT`). -/
def MEDIA_TAGS_WITH_CONTENT : List String :=
  ["video", "audio", "iframe", "object", "svg", "canvas"]

/-- Media tags to remove, union of the two sets above (`MEDIA_TAGS`). -/
def MEDIA_TAGS : List String := SELF_CLOSING_MEDIA_TAGS ++ MEDIA_TAGS_WITH_CONTENT

/-- Tags removed along with their content (`REMOVE_WITH_CONTENT`). -/
def REMOVE_WITH_CONTENT : List String := ["style", "script", "noscript"]

/-- Form elements to remove with content (`FORM_TAGS`). -/
def FORM_TAGS : List String :=
  ["form", "input", "button", "textarea", "select", "option", "label",
   "fieldset", "legend", "datalist", "output", "optgroup"]

/-- Navigation and structural elements to remove with content (`NAV_TAGS`). -/
def NAV_TAGS : List String := ["nav", "header", "footer"]

/-- Metadata tags to remove (`METADATA_TAGS`). -/
def METADATA_TAGS : List String := ["meta", "base", "link"]

/-- Tags to unwrap, keeping inner content (`UNWRAP_TAGS`). -/
def UNWRAP_TAGS : List String := ["a", "span"]

end HTMLCleaner

/-- State of the `HTMLCleaner` parser: the fields set in `__init__`. -/
structure HTMLCleaner where
  output : List String
  skip_content : Bool
  current_skip_tag : Option String
  skip_media_content : Bool
  current_media_tag : Option String
  skip_form_content : Bool
  current_form_tag : Option String
  skip_nav_content : Bool
  current_nav_tag : Option String
  in_head : Bool
  in_title : Bool
deriving DecidableEq, Repr

namespace HTMLCleaner

/-- Fresh parser state, as built by `HTMLCleaner.__init__`. -/
def init : HTMLCleaner :=
  { output := []
    skip_content := false
    current_skip_tag := none
    skip_media_content := false
    current_media_tag := none
    skip_form_content := false
    current_form_tag := none
    skip_nav_content := false
    current_nav_tag := none
    in_head := false
    in_title := false }

/-- `_is_stylesheet_link`: a `link` tag with an attribute `rel="stylesheet"`. -/
def _is_stylesheet_link (tag : String) (attrs : List Attr) : Bool :=
  tag == "link" && attrs.any (fun p => p.1 == "rel" && p.2 == some "stylesheet")

/-- `_has_hidden_attribute`: `hidden` present (any value), `aria-hidden="true"`,
or `type="hidden"`, checked on the raw attribute list. -/
def _has_hidden_attribute (attrs : List Attr) : Bool :=
  attrs.any (fun p =>
    p.1 == "hidden" ||
    (p.1 == "aria-hidden" && p.2 == some "true") ||
    (p.1 == "type" && p.2 == some "hidden"))

/-- `_clean_attributes`: drop `style`, `href`, `class`, `id`, and any name with
prefix `on`, `data-` or `aria-`; keep everything else in order. -/
def _clean_attributes : List Attr → List Attr
  | [] => []
  | (attr, value) :: rest =>
    if attr == "style" then _clean_attributes rest
    else if attr == "href" then _clean_attributes rest
    else if attr == "class" || attr == "id" then _clean_attributes rest
    else if attr.startsWith "on" then _clean_attributes rest
    else if attr.startsWith "data-" then _clean_attributes rest
    else if attr.startsWith "aria-" then _clean_attributes rest
    else (attr, value) :: _clean_attributes rest

/-- One character of `html.escape(value, quote=True)`.  Python performs the
replacement of `&` first and then `<`, `>`, `"`, `'` on the result, which is
equivalent to this independent per-character mapping. -/
def escapeChar (c : Char) : String :=
  if c = '&' then "&amp;"
  else if c = '<' then "&lt;"
  else if c = '>' then "&gt;"
  else if c = '"' then "&quot;"
  else if c = Char.ofNat 39 then "&#x27;"
  else String.singleton c

/-- `html.escape(s, quote=True)`. -/
def htmlEscape (s : String) : String := String.join (s.data.map escapeChar)

/-- One `attr="escaped-value"` fragment; a `None` value serializes as `""`. -/
def attrFragment (p : Attr) : String :=
  p.1 ++ "=\"" ++ htmlEscape (p.2.getD "") ++ "\""

/-- `_build_tag_string`: render a tag with its (already cleaned) attributes. -/
def _build_tag_string (tag : String) (attrs : List Attr) (selfClosing : Bool) : String :=
  match attrs with
  | [] =>
    if selfClosing then "<" ++ tag ++ "/>" else "<" ++ tag ++ ">"
  | _ =>
    let attrsStr := String.intercalate " " (attrs.map attrFragment)
    if selfClosing then "<" ++ tag ++ " " ++ attrsStr ++ "/>"
    else "<" ++ tag ++ " " ++ attrsStr ++ ">"

/-- `handle_starttag`: head/title tracking, then the policy chain. -/
def handle_starttag (s : HTMLCleaner) (tag : String) (attrs : List Attr) : HTMLCleaner :=
  let s1 := if tag = "head" then { s with in_head := true } else s
  let s2 := if tag = "title" then { s1 with in_title := true } else s1
  if tag ∈ REMOVE_WITH_CONTENT then
    { s2 with skip_content := true, current_skip_tag := some tag }
  else if tag ∈ FORM_TAGS then
    { s2 with skip_form_content := true, current_form_tag := some tag }
  else if tag ∈ NAV_TAGS then
    { s2 with skip_nav_content := true, current_nav_tag := some tag }
  else if tag ∈ MEDIA_TAGS then
    (if tag ∈ MEDIA_TAGS_WITH_CONTENT then
      { s2 with skip_media_content := true, current_media_tag := some tag }
    else s2)
  else if tag ∈ METADATA_TAGS then s2
  else if _is_stylesheet_link tag attrs then s2
  else if _has_hidden_attribute attrs then s2
  else if tag ∈ UNWRAP_TAGS then s2
  else { s2 with output := s2.output ++ [_build_tag_string tag (_clean_attributes attrs) false] }

/-- `handle_endtag`: head/title tracking, skip-region closing, policy chain. -/
def handle_endtag (s : HTMLCleaner) (tag : String) : HTMLCleaner :=
  let s1 := if tag = "head" then { s with in_head := false } else s
  let s2 := if tag = "title" then { s1 with in_title := false } else s1
  if s2.skip_content ∧ s2.current_skip_tag = some tag then
    { s2 with skip_content := false, current_skip_tag := none }
  else if s2.skip_form_content ∧ s2.current_form_tag = some tag then
    { s2 with skip_form_content := false, current_form_tag := none }
  else if s2.skip_nav_content ∧ s2.current_nav_tag = some tag then
    { s2 with skip_nav_content := false, current_nav_tag := none }
  else if s2.skip_media_content ∧ s2.current_media_tag = some tag then
    { s2 with skip_media_content := false, current_media_tag := none }
  else if tag ∈ REMOVE_WITH_CONTENT ∨ tag ∈ MEDIA_TAGS ∨ tag ∈ FORM_TAGS ∨
          tag ∈ NAV_TAGS ∨ tag ∈ METADATA_TAGS then s2
  else if tag ∈ UNWRAP_TAGS then s2
  else { s2 with output := s2.output ++ ["</" ++ tag ++ ">"] }

/-- `handle_data`: suppress in any skip mode, and in head outside title. -/
def handle_data (s : HTMLCleaner) (dat : String) : HTMLCleaner :=
  if s.skip_content || s.skip_media_content || s.skip_form_content || s.skip_nav_content then s
  else if s.in_head && !s.in_title then s
  else { s with output := s.output ++ [dat] }

/-- `handle_comment`: all comments are dropped. -/
def handle_comment (s : HTMLCleaner) (_dat : String) : HTMLCleaner := s

/-- `handle_decl`: declarations are always emitted as `<!decl>`. -/
def handle_decl (s : HTMLCleaner) (decl : String) : HTMLCleaner :=
  { s with output := s.output ++ ["<!" ++ decl ++ ">"] }

/-- `handle_startendtag`: single-step policy for self-closing tags. -/
def handle_startendtag (s : HTMLCleaner) (tag : String) (attrs : List Attr) : HTMLCleaner :=
  if tag ∈ MEDIA_TAGS then s
  else if tag ∈ FORM_TAGS then s
  else if tag ∈ METADATA_TAGS then s
  else if _is_stylesheet_link tag attrs then s
  else if _has_hidden_attribute attrs then s
  else { s with output := s.output ++ [_build_tag_string tag (_clean_attributes attrs) true] }

/-- `get_output`: concatenate the output fragments. -/
def get_output (s : HTMLCleaner) : String := String.join s.output

end HTMLCleaner

/-- Tokenizer events delivered to the parser's handler callbacks. -/
inductive Event where
  | starttag (tag : String) (attrs : List Attr)
  | endtag (tag : String)
  | startendtag (tag : String) (attrs : List Attr)
  | data (dat : String)
  | comment (dat : String)
  | decl (dat : String)
deriving DecidableEq, Repr

/-- Dispatch one tokenizer event to the corresponding handler. -/
def handleEvent (s : HTMLCleaner) : Event → HTMLCleaner
  | .starttag tag attrs => s.handle_starttag tag attrs
  | .endtag tag => s.handle_endtag tag
  | .startendtag tag attrs => s.handle_startendtag tag attrs
  | .data dat => s.handle_data dat
  | .comment dat => s.handle_comment dat
  | .decl dat => s.handle_decl dat

/-- `feed`: run the parser over a whole event stream in document order. -/
def feed (s : HTMLCleaner) (es : List Event) : HTMLCleaner := es.foldl handleEvent s

/-!
Embedding of `remove_empty_tags`.

The function repeatedly applies, to at most 50 changing passes, a body that
(1) for each tag of `removable_tags` in order performs
`re.sub(rf'<{tag}[^>]*>\s*</{tag}>', '', content)` and then
(2) performs `re.sub(r'^\s*</[^>]+>\s*$', '', content, flags=re.MULTILINE)`.
Both substitutions are modelled as left-to-right scanners that remove every
non-overlapping match and resume scanning at the match end, exactly as
Python's `re.sub` does.  `\s` is modelled by the ASCII whitespace class
(space, tab, newline, carriage return, vertical tab, form feed); the inputs
considered in this development are ASCII.
-/

/-- ASCII whitespace, Python's `\s` on ASCII input. -/
def pyIsSpace (c : Char) : Bool :=
  c == ' ' || c == '\t' || c == '\n' || c == '\r' ||
  c == Char.ofNat 11 || c == Char.ofNat 12

/-- Is `lit` a prefix of `s`?  Recursion is on the literal, so the test
reduces even when the tail of `s` is symbolic. -/
def litPrefix : List Char → List Char → Bool
  | [] => fun _ => true
  | a :: as => fun s =>
    match s with
    | [] => false
    | b :: bs => a == b && litPrefix as bs

/-- Consume the literal `lit` at the head of `s`, returning the rest. -/
def dropLit (lit s : List Char) : Option (List Char) :=
  if litPrefix lit s then some (s.drop lit.length) else none

/-- Try to match `<tag[^>]*>\s*</tag>` at the head of `s`; on success return
the remainder after the match.  `[^>]*` and `\s*` are deterministic here:
each is followed by a literal character it can never match. -/
def matchPair (tag : List Char) (s : List Char) : Option (List Char) :=
  match dropLit ('<' :: tag) s with
  | none => none
  | some r1 =>
    let body := r1.takeWhile (fun c => c != '>')
    match dropLit ['>'] (r1.drop body.length) with
    | none => none
    | some r2 =>
      let ws := r2.takeWhile pyIsSpace
      dropLit ('<' :: '/' :: (tag ++ ['>'])) (r2.drop ws.length)

/-- Left-to-right global substitution of `<tag[^>]*>\s*</tag>` by the empty
string.  `fuel` bounds the recursion; each step consumes at least one
character, so `fuel = s.length` never runs out. -/
def scanPair (tag : List Char) : Nat → List Char → List Char
  | 0, s => s
  | fuel + 1, s =>
    match matchPair tag s with
    | some rest => scanPair tag fuel rest
    | none =>
      match s with
      | [] => []
      | c :: cs => c :: scanPair tag fuel cs

/-- `re.sub(rf'<{tag}[^>]*>\s*</{tag}>', '', s)`. -/
def subEmptyPair (tag : String) (s : List Char) : List Char :=
  scanPair tag.data s.length s

/-- Does `s` begin at the end of the string or at a `\n` (a `$` position in
multiline mode)? -/
def endOrNl : List Char → Bool
  | [] => true
  | c :: _ => c == '\n'

/-- Greedy backtracking for the trailing `\s*$`: the largest `j ≤ k` such
that position `j` of `r` (all of whose first `k` characters are whitespace)
is a `$` position. -/
def findDollar (r : List Char) : Nat → Option Nat
  | 0 => if endOrNl r then some 0 else none
  | k + 1 => if endOrNl (r.drop (k + 1)) then some (k + 1) else findDollar r k

/-- Try to match `^\s*</[^>]+>\s*$` (multiline) at the head of `s`, which is
assumed to be a `^` position.  On success return the remainder after the
match together with whether the last matched character was a `\n` (so that
the resume position is again a `^` position). -/
def matchOrphan (s : List Char) : Option (List Char × Bool) :=
  let ws1 := s.takeWhile pyIsSpace
  match dropLit ['<', '/'] (s.drop ws1.length) with
  | none => none
  | some r2 =>
    let name := r2.takeWhile (fun c => c != '>')
    if name.isEmpty then none
    else
      match dropLit ['>'] (r2.drop name.length) with
      | none => none
      | some r4 =>
        let ws2 := r4.takeWhile pyIsSpace
        match findDollar r4 ws2.length with
        | none => none
        | some k => some (r4.drop k, (r4.take k).getLast? == some '\n')

/-- Left-to-right global substitution of `^\s*</[^>]+>\s*$` (multiline) by
the empty string.  `atStart` tracks whether the current position is a `^`
position (string start or just after a `\n`). -/
def scanOrphan : Nat → Bool → List Char → List Char
  | 0, _, s => s
  | fuel + 1, atStart, s =>
    match (if atStart then matchOrphan s else none) with
    | some (rest, lastNl) => scanOrphan fuel lastNl rest
    | none =>
      match s with
      | [] => []
      | c :: cs => c :: scanOrphan fuel (c == '\n') cs

/-- `re.sub(r'^\s*</[^>]+>\s*$', '', s, flags=re.MULTILINE)`. -/
def subOrphan (s : List Char) : List Char := scanOrphan s.length true s

/-- The `removable_tags` list of `remove_empty_tags`, in source order. -/
def removable_tags : List String :=
  ["div", "span", "p", "li", "ul", "ol", "h1", "h2", "h3", "h4", "h5", "h6",
   "section", "article", "aside", "main", "figure", "figcaption",
   "strong", "em", "b", "i", "u", "small", "mark", "del", "ins",
   "sub", "sup", "blockquote", "pre", "code", "kbd", "samp", "var",
   "abbr", "address", "cite", "dfn", "time", "dd", "dt", "dl"]

/-- One iteration of the `while` body of `remove_empty_tags`: the per-tag
empty-pair substitutions in list order, then the orphan-closing-tag
substitution. -/
def onePass (s : List Char) : List Char :=
  subOrphan (removable_tags.foldl (fun acc t => subEmptyPair t acc) s)

/-- The `while iteration < max_iterations` loop: run `onePass` until it
produces no change or the fuel (the iteration cap) is exhausted. -/
def emptyTagLoop : Nat → List Char → List Char
  | 0, s => s
  | n + 1, s =>
    let t := onePass s
    if t = s then s else emptyTagLoop n t

/-- `remove_empty_tags` with its `max_iterations = 50` cap. -/
def remove_empty_tags (s : String) : String := ⟨emptyTagLoop 50 s.data⟩

/-- One `while`-body pass of `remove_empty_tags`, on strings. -/
def onePassStr (s : String) : String := ⟨onePass s.data⟩

/-- The per-attribute keep predicate of `_clean_attributes` (the complement
of its drop conditions), used to relate the function to `List.filter`. -/
def keepAttr (p : Attr) : Bool :=
  !(p.1 == "style" || p.1 == "href" || p.1 == "class" || p.1 == "id" ||
    p.1.startsWith "on" || p.1.startsWith "data-" || p.1.startsWith "aria-")

/-- The character list `['<', 'b', '>']` repeated `n` times: `n` consecutive
`<b>` opening tags. -/
def opensB : Nat → List Char
  | 0 => []
  | n + 1 => '<' :: 'b' :: '>' :: opensB n

/-- The character list of `n` consecutive `</b>` closing tags. -/
def closesB : Nat → List Char
  | 0 => []
  | n + 1 => '<' :: '/' :: 'b' :: '>' :: closesB n

/-- The string of `n` nested exactly-empty `b` elements. -/
def nestedB (n : Nat) : String := ⟨opensB n ++ closesB n⟩

/-- A parser state in which the form skip region is active. -/
def formSkipState : HTMLCleaner := { HTMLCleaner.init with skip_form_content := true }

/-- A parser state in which the style/script/noscript skip region is active
with recorded opening tag `script`. -/
def scriptSkipState : HTMLCleaner :=
  { HTMLCleaner.init with skip_content := true, current_skip_tag := some "script" }

/-!
Theorems.
-/

/-- C2: on the event stream of `<script>alert(1)</script><p>ok</p>` the
filter's output is exactly `<p>ok</p>`: the script tag and its content are
fully elided and the following sibling is emitted unchanged. -/
theorem script_region_containment :
    (feed HTMLCleaner.init
      [.starttag "script" [], .data "alert(1)", .endtag "script",
       .starttag "p" [], .data "ok", .endtag "p"]).get_output = "<p>ok</p>" := by
  decide

/-- C4: handling a declaration event appends exactly `<!data>` to the
output, in every filter state; declarations are never suppressed. -/
theorem decl_always_emitted (s : HTMLCleaner) (d : String) :
    handleEvent s (.decl d) = { s with output := s.output ++ ["<!" ++ d ++ ">"] } :=
  rfl

/-- C5: a text event is suppressed exactly when some skip region is active
or the state satisfies `in_head && !in_title`; otherwise the text is
appended to the output verbatim. -/
theorem text_suppressed_iff (s : HTMLCleaner) (d : String) :
    s.handle_data d =
      if s.skip_content || s.skip_media_content || s.skip_form_content ||
         s.skip_nav_content || (s.in_head && !s.in_title) then s
      else { s with output := s.output ++ [d] } := by
  obtain ⟨o, sc, cst, smc, cmt, sfc, cft, snc, cnt, ih, it⟩ := s
  cases sc <;> cases smc <;> cases sfc <;> cases snc <;> cases ih <;> cases it <;>
    simp [HTMLCleaner.handle_data]

/-- C6: on the event stream of `<a href="x">click</a>` the filter's final
state is the initial state with output `click`: the unwrap-set tags emit
nothing and open no skip region while the enclosed text is retained. -/
theorem unwrap_anchor_keeps_text :
    feed HTMLCleaner.init [.starttag "a" [("href", some "x")], .data "click", .endtag "a"]
      = { HTMLCleaner.init with output := ["click"] } ∧
    (feed HTMLCleaner.init
      [.starttag "a" [("href", some "x")], .data "click", .endtag "a"]).get_output
      = "click" := by
  constructor <;> decide

/-- Helper: `_clean_attributes` is `List.filter keepAttr`. -/
theorem _clean_attributes_eq_filter (attrs : List Attr) :
    HTMLCleaner._clean_attributes attrs = attrs.filter keepAttr := by
  induction attrs with
  | nil => rfl
  | cons hd tl ih =>
    obtain ⟨a, v⟩ := hd
    unfold HTMLCleaner._clean_attributes
    split_ifs with h1 h2 h3 h4 h5 h6 <;>
      simp_all [keepAttr, List.filter_cons] <;>
      rcases h3 with h | h <;> simp_all

/-- C7: attribute cleaning reaches its fixed point in one pass
(`_clean_attributes` is idempotent) and the survivors keep their original
relative order (the result is a sublist of the input). -/
theorem clean_attributes_idempotent_and_ordered (attrs : List Attr) :
    HTMLCleaner._clean_attributes (HTMLCleaner._clean_attributes attrs)
      = HTMLCleaner._clean_attributes attrs ∧
    List.Sublist (HTMLCleaner._clean_attributes attrs) attrs := by
  constructor
  · rw [_clean_attributes_eq_filter, _clean_attributes_eq_filter, List.filter_filter]
    simp
  · rw [_clean_attributes_eq_filter]
    exact List.filter_sublist attrs

/-- C10: `handle_startendtag` changes no state field; its only effect is
possibly appending one self-closing tag string to the output.  In
particular a self-closing `title` or `head` tag does not set the
head/title context and a self-closing form or media tag opens no skip
region. -/
theorem startendtag_state_frame (s : HTMLCleaner) (tag : String) (attrs : List Attr) :
    ((s.handle_startendtag tag attrs).skip_content = s.skip_content ∧
     (s.handle_startendtag tag attrs).current_skip_tag = s.current_skip_tag ∧
     (s.handle_startendtag tag attrs).skip_media_content = s.skip_media_content ∧
     (s.handle_startendtag tag attrs).current_media_tag = s.current_media_tag ∧
     (s.handle_startendtag tag attrs).skip_form_content = s.skip_form_content ∧
     (s.handle_startendtag tag attrs).current_form_tag = s.current_form_tag ∧
     (s.handle_startendtag tag attrs).skip_nav_content = s.skip_nav_content ∧
     (s.handle_startendtag tag attrs).current_nav_tag = s.current_nav_tag ∧
     (s.handle_startendtag tag attrs).in_head = s.in_head ∧
     (s.handle_startendtag tag attrs).in_title = s.in_title) ∧
    ((s.handle_startendtag tag attrs).output = s.output ∨
     (s.handle_startendtag tag attrs).output
       = s.output ++ [HTMLCleaner._build_tag_string tag (HTMLCleaner._clean_attributes attrs) true]) := by
  unfold HTMLCleaner.handle_startendtag
  split_ifs <;> simp

/-- C1 counterexample: with the form skip region active (opened by a
`form` start tag), a nested `p` start tag still emits `<p>`, and the whole
stream `<form><p></p></form>` produces `<p></p>` rather than nothing — so
events strictly inside a skip region are not all suppressed. -/
theorem nested_tag_inside_skip_region_emitted :
    (HTMLCleaner.init.handle_starttag "form" []).skip_form_content = true ∧
    ((HTMLCleaner.init.handle_starttag "form" []).handle_starttag "p" []).output = ["<p>"] ∧
    (feed HTMLCleaner.init
      [.starttag "form" [], .starttag "p" [], .endtag "p", .endtag "form"]).get_output
      = "<p></p>" := by
  decide

set_option maxHeartbeats 1600000 in
/-- C1 amended: while a skip region of any category is active, text events
are fully suppressed.  Start-tag and self-closing-tag events are processed
by the per-tag policy independently of the skip state: in every state they
append exactly what they would append from the initial (no-region) state.
End-tag events are not suppressed by the region as such: an end tag
outside every removal/metadata/unwrap category whose name differs from
every region's recorded opening tag emits its closing string even inside
an active region, while an end tag equal to the style/script/noscript
region's recorded tag while that region is active deactivates the region
and emits nothing. -/
theorem skip_region_suppresses_text_only (s : HTMLCleaner) (d tag : String)
    (attrs : List Attr) :
    (s.skip_content = true ∨ s.skip_media_content = true ∨
       s.skip_form_content = true ∨ s.skip_nav_content = true →
     (s.handle_data d).output = s.output) ∧
    (s.handle_starttag tag attrs).output
      = s.output ++ (HTMLCleaner.init.handle_starttag tag attrs).output ∧
    (s.handle_startendtag tag attrs).output
      = s.output ++ (HTMLCleaner.init.handle_startendtag tag attrs).output ∧
    (tag ∉ HTMLCleaner.REMOVE_WITH_CONTENT → tag ∉ HTMLCleaner.MEDIA_TAGS →
     tag ∉ HTMLCleaner.FORM_TAGS → tag ∉ HTMLCleaner.NAV_TAGS →
     tag ∉ HTMLCleaner.METADATA_TAGS → tag ∉ HTMLCleaner.UNWRAP_TAGS →
     s.current_skip_tag ≠ some tag → s.current_form_tag ≠ some tag →
     s.current_nav_tag ≠ some tag → s.current_media_tag ≠ some tag →
     (s.handle_endtag tag).output = s.output ++ ["</" ++ tag ++ ">"]) ∧
    (s.skip_content = true → s.current_skip_tag = some tag →
     (s.handle_endtag tag).skip_content = false ∧
     (s.handle_endtag tag).output = s.output) := by
  refine ⟨?_, ?_, ?_, ?_, ?_⟩
  · intro h
    rcases h with h | h | h | h <;> simp [HTMLCleaner.handle_data, h]
  · unfold HTMLCleaner.handle_starttag
    split_ifs <;> simp [HTMLCleaner.init]
  · unfold HTMLCleaner.handle_startendtag
    split_ifs <;> simp [HTMLCleaner.init]
  · intro h1 h2 h3 h4 h5 h6 hs hf hn hm
    unfold HTMLCleaner.handle_endtag
    rcases eq_or_ne tag "head" with hd | hd
    · rcases eq_or_ne tag "title" with ht | ht
      · rw [hd] at ht
        exact absurd ht (by decide)
      · subst hd
        simp [ht, h1, h2, h3, h4, h5, h6, hs, hf, hn, hm]
    · rcases eq_or_ne tag "title" with ht | ht
      · subst ht
        simp [hd, h1, h2, h3, h4, h5, h6, hs, hf, hn, hm]
      · simp [hd, ht, h1, h2, h3, h4, h5, h6, hs, hf, hn, hm]
  · intro hc hct
    unfold HTMLCleaner.handle_endtag
    rcases eq_or_ne tag "head" with hd | hd
    · rcases eq_or_ne tag "title" with ht | ht
      · rw [hd] at ht
        exact absurd ht (by decide)
      · subst hd
        simp [ht, hc, hct]
    · rcases eq_or_ne tag "title" with ht | ht
      · subst ht
        simp [hd, hc, hct]
      · simp [hd, ht, hc, hct]

/-- C1 amended, witness: with the form skip region active, text `x` is
suppressed while a nested `p` start tag, a nested self-closing `br` tag
and a nested `p` end tag all still emit; and with the script region active
a nested `script` end tag deactivates the region and emits nothing. -/
theorem skip_region_suppresses_text_only_witness :
    ((formSkipState.handle_data "x").output = formSkipState.output) ∧
    ((formSkipState.handle_starttag "p" []).output
       = formSkipState.output ++ (HTMLCleaner.init.handle_starttag "p" []).output) ∧
    ((formSkipState.handle_startendtag "br" []).output
       = formSkipState.output ++ (HTMLCleaner.init.handle_startendtag "br" []).output) ∧
    ((formSkipState.handle_endtag "p").output = formSkipState.output ++ ["</" ++ "p" ++ ">"]) ∧
    ((scriptSkipState.handle_endtag "script").skip_content = false ∧
     (scriptSkipState.handle_endtag "script").output = scriptSkipState.output) :=
  ⟨(skip_region_suppresses_text_only formSkipState "x" "p" []).1
     (Or.inr (Or.inr (Or.inl (by decide)))),
   (skip_region_suppresses_text_only formSkipState "x" "p" []).2.1,
   (skip_region_suppresses_text_only formSkipState "x" "br" []).2.2.1,
   (skip_region_suppresses_text_only formSkipState "x" "p" []).2.2.2.1
     (by decide) (by decide) (by decide) (by decide) (by decide) (by decide)
     (by decide) (by decide) (by decide) (by decide),
   (skip_region_suppresses_text_only scriptSkipState "x" "script" []).2.2.2.2
     (by decide) (by decide)⟩

/-- C3 counterexample: the tag `head` is in no removal/metadata/unwrap
category, and a `head` start tag carrying the `hidden` attribute emits
nothing — but it still sets `in_head`, so the text following it is
suppressed instead of being processed exactly as outside the element. -/
theorem hidden_head_changes_following_text :
    ("head" ∉ HTMLCleaner.REMOVE_WITH_CONTENT ∧ "head" ∉ HTMLCleaner.FORM_TAGS ∧
     "head" ∉ HTMLCleaner.NAV_TAGS ∧ "head" ∉ HTMLCleaner.MEDIA_TAGS ∧
     "head" ∉ HTMLCleaner.METADATA_TAGS ∧ "head" ∉ HTMLCleaner.UNWRAP_TAGS) ∧
    HTMLCleaner._has_hidden_attribute [("hidden", none)] = true ∧
    (HTMLCleaner.init.handle_starttag "head" [("hidden", none)]).output = [] ∧
    ((HTMLCleaner.init.handle_starttag "head" [("hidden", none)]).handle_data "x").output = [] ∧
    (HTMLCleaner.init.handle_data "x").output = ["x"] := by
  decide

/-- C3 amended: a start tag outside every removal/metadata/unwrap category
that carries a hidden signal emits nothing and changes no skip-state
field; the only state change is the head/title section flag when the tag
is `head` or `title`, so for every other tag the state is entirely
unchanged and following events are processed as outside the element. -/
theorem hidden_start_tag_suppression (s : HTMLCleaner) (tag : String) (attrs : List Attr)
    (h1 : tag ∉ HTMLCleaner.REMOVE_WITH_CONTENT) (h2 : tag ∉ HTMLCleaner.FORM_TAGS)
    (h3 : tag ∉ HTMLCleaner.NAV_TAGS) (h4 : tag ∉ HTMLCleaner.MEDIA_TAGS)
    (h5 : tag ∉ HTMLCleaner.METADATA_TAGS) (h6 : tag ∉ HTMLCleaner.UNWRAP_TAGS)
    (hh : HTMLCleaner._has_hidden_attribute attrs = true) :
    (s.handle_starttag tag attrs).output = s.output ∧
    ((s.handle_starttag tag attrs).skip_content = s.skip_content ∧
     (s.handle_starttag tag attrs).current_skip_tag = s.current_skip_tag ∧
     (s.handle_starttag tag attrs).skip_media_content = s.skip_media_content ∧
     (s.handle_starttag tag attrs).current_media_tag = s.current_media_tag ∧
     (s.handle_starttag tag attrs).skip_form_content = s.skip_form_content ∧
     (s.handle_starttag tag attrs).current_form_tag = s.current_form_tag ∧
     (s.handle_starttag tag attrs).skip_nav_content = s.skip_nav_content ∧
     (s.handle_starttag tag attrs).current_nav_tag = s.current_nav_tag) ∧
    (tag ≠ "head" → tag ≠ "title" → s.handle_starttag tag attrs = s) := by
  have hlink : HTMLCleaner._is_stylesheet_link tag attrs = false := by
    have hne : tag ≠ "link" := by
      intro e
      exact h5 (by simp [e, HTMLCleaner.METADATA_TAGS])
    simp [HTMLCleaner._is_stylesheet_link, hne]
  unfold HTMLCleaner.handle_starttag
  rcases eq_or_ne tag "head" with hd | hd
  · rcases eq_or_ne tag "title" with ht | ht
    · rw [hd] at ht
      exact absurd ht (by decide)
    · subst hd
      simp [ht, h1, h2, h3, h4, h5, h6, hlink, hh]
  · rcases eq_or_ne tag "title" with ht | ht
    · subst ht
      simp [hd, h1, h2, h3, h4, h5, h6, hlink, hh]
    · simp [hd, ht, h1, h2, h3, h4, h5, h6, hlink, hh]

/-- C3 amended, witness: a `div` start tag with the `hidden` attribute
leaves the initial state entirely unchanged. -/
theorem hidden_start_tag_suppression_witness :
    HTMLCleaner._has_hidden_attribute [("hidden", none)] = true ∧
    HTMLCleaner.init.handle_starttag "div" [("hidden", none)] = HTMLCleaner.init :=
  ⟨by decide,
   (hidden_start_tag_suppression HTMLCleaner.init "div" [("hidden", none)]
      (by decide) (by decide) (by decide) (by decide) (by decide) (by decide)
      (by decide)).2.2 (by decide) (by decide)⟩

/-- Helper: a scan never changes a list none of whose suffixes matches. -/
theorem scanPair_eq_of_no_suffix_match (t : List Char) :
    ∀ (fuel : Nat) (s : List Char),
      (∀ s₂, s₂ <:+ s → matchPair t s₂ = none) → scanPair t fuel s = s := by
  intro fuel
  induction fuel with
  | zero => intro s _; rfl
  | succ n ih =>
    intro s h
    have h0 : matchPair t s = none := h s (List.suffix_refl s)
    cases s with
    | nil => rfl
    | cons c cs =>
      simp only [scanPair, h0]
      exact congrArg (c :: ·) (ih cs (fun s₂ hs => h s₂ (hs.trans (List.suffix_cons c cs))))

/-- Helper: no suffix of a run of `</b>` groups matches `<b[^>]*>\s*</b>`. -/
theorem closesB_suffix_no_match :
    ∀ m s₂, s₂ <:+ closesB m → matchPair ['b'] s₂ = none := by
  intro m
  induction m with
  | zero =>
    intro s₂ h
    rw [List.suffix_nil.mp h]
    rfl
  | succ k ih =>
    intro s₂ h
    rw [closesB] at h
    rcases List.suffix_cons_iff.mp h with rfl | h
    · rfl
    rcases List.suffix_cons_iff.mp h with rfl | h
    · rfl
    rcases List.suffix_cons_iff.mp h with rfl | h
    · rfl
    rcases List.suffix_cons_iff.mp h with rfl | h
    · rfl
    exact ih s₂ h

/-- Helper: scanning a run of `</b>` groups for the `b` pattern is the
identity, whatever the fuel. -/
theorem scanPair_b_closesB (m fuel : Nat) :
    scanPair ['b'] fuel (closesB m) = closesB m :=
  scanPair_eq_of_no_suffix_match _ fuel _ (closesB_suffix_no_match m)

/-- Helper: the `b` pattern does not match at `<b><b`. -/
theorem matchPair_b_open_open (r : List Char) :
    matchPair ['b'] ('<' :: 'b' :: '>' :: '<' :: 'b' :: r) = none := rfl

/-- Helper: the `b` pattern does not match at a position starting with `b`. -/
theorem matchPair_b_at_b (r : List Char) : matchPair ['b'] ('b' :: r) = none := rfl

/-- Helper: the `b` pattern does not match at a position starting with `>`. -/
theorem matchPair_b_at_gt (r : List Char) : matchPair ['b'] ('>' :: r) = none := rfl

/-- Helper: the `b` pattern matches `<b></b>` and consumes exactly it. -/
theorem matchPair_b_match (r : List Char) :
    matchPair ['b'] ('<' :: 'b' :: '>' :: '<' :: '/' :: 'b' :: '>' :: r) = some r := rfl

/-- Helper: one scan for the `b` pattern removes exactly the innermost
`<b></b>` pair of a nest of opens followed by closes. -/
theorem scanPair_b_nested :
    ∀ k m fuel, scanPair ['b'] (fuel + (3 * k + 1)) (opensB (k + 1) ++ closesB (m + 1))
      = opensB k ++ closesB m := by
  intro k
  induction k with
  | zero =>
    intro m fuel
    have e : fuel + (3 * 0 + 1) = fuel + 1 := by ring
    rw [e]
    simp only [opensB, closesB, List.cons_append, List.nil_append]
    simp only [scanPair, matchPair_b_match]
    exact scanPair_b_closesB m fuel
  | succ k ih =>
    intro m fuel
    have e : fuel + (3 * (k + 1) + 1) = ((fuel + (3 * k + 1)) + 1 + 1) + 1 := by ring
    rw [e]
    simp only [opensB, List.cons_append]
    simp only [scanPair, matchPair_b_open_open, matchPair_b_at_b, matchPair_b_at_gt]
    show ('<' :: 'b' :: '>' ::
        scanPair ['b'] (fuel + (3 * k + 1)) (opensB (k + 1) ++ closesB (m + 1)) : List Char)
      = '<' :: 'b' :: '>' :: (opensB k ++ closesB m)
    rw [ih m fuel]

/-- Helper: `opensB` produces `3 * n` characters. -/
theorem opensB_length (n : Nat) : (opensB n).length = 3 * n := by
  induction n with
  | zero => rfl
  | succ k ih => simp [opensB, ih]; ring

/-- Helper: `closesB` produces `4 * n` characters. -/
theorem closesB_length (n : Nat) : (closesB n).length = 4 * n := by
  induction n with
  | zero => rfl
  | succ k ih => simp [closesB, ih]; ring

/-- Helper: `subEmptyPair "b"` removes exactly the innermost `<b></b>` pair
of a nonempty nest of opens followed by closes. -/
theorem subEmptyPair_b_nested (k m : Nat) :
    subEmptyPair "b" (opensB (k + 1) ++ closesB (m + 1)) = opensB k ++ closesB m := by
  show scanPair ['b'] (opensB (k + 1) ++ closesB (m + 1)).length
      (opensB (k + 1) ++ closesB (m + 1)) = opensB k ++ closesB m
  have e : (opensB (k + 1) ++ closesB (m + 1)).length = (4 * m + 6) + (3 * k + 1) := by
    rw [List.length_append, opensB_length, closesB_length]
    ring
  rw [e]
  exact scanPair_b_nested k m (4 * m + 6)

/-- Helper: a tag whose characters can match neither `b>` nor a leading `/`
finds no match anywhere in a nest of `b` opens followed by `b` closes. -/
theorem nested_suffix_no_match (t : String)
    (h1 : ∀ r, litPrefix t.data ('b' :: '>' :: r) = false)
    (h2 : ∀ r, litPrefix t.data ('/' :: r) = false) :
    ∀ k m s₂, s₂ <:+ (opensB k ++ closesB m) → matchPair t.data s₂ = none := by
  intro k
  induction k with
  | zero =>
    intro m
    induction m with
    | zero =>
      intro s₂ h
      simp only [opensB, closesB, List.nil_append] at h
      rw [List.suffix_nil.mp h]
      cases ht : t.data with
      | nil => simp [matchPair, dropLit, litPrefix]
      | cons a as => simp [matchPair, dropLit, litPrefix]
    | succ j ihm =>
      intro s₂ h
      simp only [opensB, closesB, List.nil_append] at h ihm ⊢
      rcases List.suffix_cons_iff.mp h with rfl | h
      · simp [matchPair, dropLit, litPrefix, h2]
      rcases List.suffix_cons_iff.mp h with rfl | h
      · rfl
      rcases List.suffix_cons_iff.mp h with rfl | h
      · rfl
      rcases List.suffix_cons_iff.mp h with rfl | h
      · rfl
      exact ihm s₂ h
  | succ k ihk =>
    intro m s₂ h
    simp only [opensB, List.cons_append] at h
    rcases List.suffix_cons_iff.mp h with rfl | h
    · simp [matchPair, dropLit, litPrefix, h1]
    rcases List.suffix_cons_iff.mp h with rfl | h
    · rfl
    rcases List.suffix_cons_iff.mp h with rfl | h
    · rfl
    exact ihk m s₂ h

/-- Helper: `subEmptyPair` for such a tag leaves the nest unchanged. -/
theorem subEmptyPair_id_nested (t : String)
    (h1 : ∀ r, litPrefix t.data ('b' :: '>' :: r) = false)
    (h2 : ∀ r, litPrefix t.data ('/' :: r) = false) (k m : Nat) :
    subEmptyPair t (opensB k ++ closesB m) = opensB k ++ closesB m :=
  scanPair_eq_of_no_suffix_match _ _ _ (nested_suffix_no_match t h1 h2 k m)

/-- Helper: the per-tag substitution pass of `remove_empty_tags`, applied to
a nonempty nest of empty `b` elements, removes exactly the innermost pair:
only the `b` pattern can match, and it matches once. -/
theorem tagsFold_nested (k m : Nat) :
    removable_tags.foldl (fun acc t => subEmptyPair t acc) (opensB (k + 1) ++ closesB (m + 1))
      = opensB k ++ closesB m := by
  simp only [removable_tags, List.foldl_cons, List.foldl_nil]
  rw [subEmptyPair_id_nested "div" (fun r => rfl) (fun r => rfl),
      subEmptyPair_id_nested "span" (fun r => rfl) (fun r => rfl),
      subEmptyPair_id_nested "p" (fun r => rfl) (fun r => rfl),
      subEmptyPair_id_nested "li" (fun r => rfl) (fun r => rfl),
      subEmptyPair_id_nested "ul" (fun r => rfl) (fun r => rfl),
      subEmptyPair_id_nested "ol" (fun r => rfl) (fun r => rfl),
      subEmptyPair_id_nested "h1" (fun r => rfl) (fun r => rfl),
      subEmptyPair_id_nested "h2" (fun r => rfl) (fun r => rfl),
      subEmptyPair_id_nested "h3" (fun r => rfl) (fun r => rfl),
      subEmptyPair_id_nested "h4" (fun r => rfl) (fun r => rfl),
      subEmptyPair_id_nested "h5" (fun r => rfl) (fun r => rfl),
      subEmptyPair_id_nested "h6" (fun r => rfl) (fun r => rfl),
      subEmptyPair_id_nested "section" (fun r => rfl) (fun r => rfl),
      subEmptyPair_id_nested "article" (fun r => rfl) (fun r => rfl),
      subEmptyPair_id_nested "aside" (fun r => rfl) (fun r => rfl),
      subEmptyPair_id_nested "main" (fun r => rfl) (fun r => rfl),
      subEmptyPair_id_nested "figure" (fun r => rfl) (fun r => rfl),
      subEmptyPair_id_nested "figcaption" (fun r => rfl) (fun r => rfl),
      subEmptyPair_id_nested "strong" (fun r => rfl) (fun r => rfl),
      subEmptyPair_id_nested "em" (fun r => rfl) (fun r => rfl),
      subEmptyPair_b_nested,
      subEmptyPair_id_nested "i" (fun r => rfl) (fun r => rfl),
      subEmptyPair_id_nested "u" (fun r => rfl) (fun r => rfl),
      subEmptyPair_id_nested "small" (fun r => rfl) (fun r => rfl),
      subEmptyPair_id_nested "mark" (fun r => rfl) (fun r => rfl),
      subEmptyPair_id_nested "del" (fun r => rfl) (fun r => rfl),
      subEmptyPair_id_nested "ins" (fun r => rfl) (fun r => rfl),
      subEmptyPair_id_nested "sub" (fun r => rfl) (fun r => rfl),
      subEmptyPair_id_nested "sup" (fun r => rfl) (fun r => rfl),
      subEmptyPair_id_nested "blockquote" (fun r => rfl) (fun r => rfl),
      subEmptyPair_id_nested "pre" (fun r => rfl) (fun r => rfl),
      subEmptyPair_id_nested "code" (fun r => rfl) (fun r => rfl),
      subEmptyPair_id_nested "kbd" (fun r => rfl) (fun r => rfl),
      subEmptyPair_id_nested "samp" (fun r => rfl) (fun r => rfl),
      subEmptyPair_id_nested "var" (fun r => rfl) (fun r => rfl),
      subEmptyPair_id_nested "abbr" (fun r => rfl) (fun r => rfl),
      subEmptyPair_id_nested "address" (fun r => rfl) (fun r => rfl),
      subEmptyPair_id_nested "cite" (fun r => rfl) (fun r => rfl),
      subEmptyPair_id_nested "dfn" (fun r => rfl) (fun r => rfl),
      subEmptyPair_id_nested "time" (fun r => rfl) (fun r => rfl),
      subEmptyPair_id_nested "dd" (fun r => rfl) (fun r => rfl),
      subEmptyPair_id_nested "dt" (fun r => rfl) (fun r => rfl),
      subEmptyPair_id_nested "dl" (fun r => rfl) (fun r => rfl)]

/-- Helper: away from a `^` position, the orphan scan keeps every character
of a newline-free list. -/
theorem scanOrphan_no_nl :
    ∀ (fuel : Nat) (s : List Char), (∀ c ∈ s, c ≠ '\n') →
      scanOrphan fuel false s = s := by
  intro fuel
  induction fuel with
  | zero => intro s _; rfl
  | succ n ih =>
    intro s h
    cases s with
    | nil => rfl
    | cons c cs =>
      have hc : (c == '\n') = false := by
        simp [h c (List.mem_cons_self c cs)]
      show c :: scanOrphan n (c == '\n') cs = c :: cs
      rw [hc]
      exact congrArg (c :: ·) (ih cs (fun x hx => h x (List.mem_cons_of_mem c hx)))

/-- Helper: every character of a `b` nest is `<`, `b`, `/` or `>`. -/
theorem nested_chars (k m : Nat) :
    ∀ c ∈ opensB k ++ closesB m, c = '<' ∨ c = 'b' ∨ c = '/' ∨ c = '>' := by
  intro c hc
  rcases List.mem_append.mp hc with h | h
  · clear hc
    induction k with
    | zero => simp [opensB] at h
    | succ j ih =>
      simp only [opensB, List.mem_cons] at h
      rcases h with rfl | rfl | rfl | h
      · exact Or.inl rfl
      · exact Or.inr (Or.inl rfl)
      · exact Or.inr (Or.inr (Or.inr rfl))
      · exact ih h
  · clear hc
    induction m with
    | zero => simp [closesB] at h
    | succ j ih =>
      simp only [closesB, List.mem_cons] at h
      rcases h with rfl | rfl | rfl | rfl | h
      · exact Or.inl rfl
      · exact Or.inr (Or.inr (Or.inl rfl))
      · exact Or.inr (Or.inl rfl)
      · exact Or.inr (Or.inr (Or.inr rfl))
      · exact ih h

/-- Helper: the orphan-closing-tag pass leaves a `b` nest unchanged: at the
sole `^` position the string starts with `<b`, which the pattern rejects,
and the string contains no newline. -/
theorem subOrphan_nested (n : Nat) :
    subOrphan (opensB n ++ closesB n) = opensB n ++ closesB n := by
  cases n with
  | zero => rfl
  | succ k =>
    have hnl : ∀ c ∈ opensB (k + 1) ++ closesB (k + 1), c ≠ '\n' := by
      intro c hc
      rcases nested_chars (k + 1) (k + 1) c hc with rfl | rfl | rfl | rfl <;> decide
    show scanOrphan (opensB (k + 1) ++ closesB (k + 1)).length true
        (opensB (k + 1) ++ closesB (k + 1)) = opensB (k + 1) ++ closesB (k + 1)
    simp only [opensB, List.cons_append]
    rw [show ('<' :: 'b' :: '>' :: (opensB k ++ closesB (k + 1)) : List Char).length
          = (('b' :: '>' :: (opensB k ++ closesB (k + 1)) : List Char)).length + 1 from rfl]
    show ('<' :: scanOrphan ('b' :: '>' :: (opensB k ++ closesB (k + 1))).length
        ((Char.ofNat 60) == '\n') ('b' :: '>' :: (opensB k ++ closesB (k + 1))) : List Char)
      = '<' :: 'b' :: '>' :: (opensB k ++ closesB (k + 1))
    refine congrArg ('<' :: ·) (scanOrphan_no_nl _ _ ?_)
    intro c hc
    simp only [List.mem_cons] at hc
    rcases hc with rfl | rfl | h
    · decide
    · decide
    · exact hnl c (by simp [opensB, List.cons_append, List.mem_cons, h])

/-- Helper: one `while`-body pass on a nonempty nest of empty `b` elements
removes exactly one nesting level. -/
theorem onePass_nested (n : Nat) :
    onePass (opensB (n + 1) ++ closesB (n + 1)) = opensB n ++ closesB n := by
  unfold onePass
  rw [tagsFold_nested]
  exact subOrphan_nested n

/-- Helper: distinct nesting depths give distinct character lists. -/
theorem nested_ne (n : Nat) :
    opensB n ++ closesB n ≠ opensB (n + 1) ++ closesB (n + 1) := by
  intro h
  have hl := congrArg List.length h
  rw [List.length_append, List.length_append, opensB_length, closesB_length,
    opensB_length, closesB_length] at hl
  omega

/-- Helper: `j ≤ n` loop iterations on an `n`-deep nest remove `j` levels. -/
theorem emptyTagLoop_nested : ∀ j n, j ≤ n →
    emptyTagLoop j (opensB n ++ closesB n) = opensB (n - j) ++ closesB (n - j) := by
  intro j
  induction j with
  | zero => intro n _; simp [emptyTagLoop]
  | succ i ih =>
    intro n hn
    obtain ⟨p, rfl⟩ : ∃ p, n = p + 1 := ⟨n - 1, by omega⟩
    show (if onePass (opensB (p + 1) ++ closesB (p + 1)) = opensB (p + 1) ++ closesB (p + 1)
        then opensB (p + 1) ++ closesB (p + 1)
        else emptyTagLoop i (onePass (opensB (p + 1) ++ closesB (p + 1)))) = _
    rw [onePass_nested p, if_neg (nested_ne p), ih p (by omega)]
    congr 2 <;> omega

/-- Helper: the 50-pass cap leaves a 52-deep nest of empty `b` elements
with two levels still in place. -/
theorem remove_empty_tags_nested52 : remove_empty_tags (nestedB 52) = nestedB 2 := by
  show String.mk (emptyTagLoop 50 (opensB 52 ++ closesB 52)) = nestedB 2
  rw [emptyTagLoop_nested 50 52 (by omega)]
  rfl

/-- Helper: a second application removes the remaining two levels. -/
theorem remove_empty_tags_nested2 : remove_empty_tags (nestedB 2) = "" := by
  show String.mk (emptyTagLoop 50 (opensB 2 ++ closesB 2)) = ""
  show String.mk (if onePass (opensB 2 ++ closesB 2) = opensB 2 ++ closesB 2
      then opensB 2 ++ closesB 2 else emptyTagLoop 49 (onePass (opensB 2 ++ closesB 2))) = ""
  rw [show (opensB 2 ++ closesB 2 : List Char) = opensB (1 + 1) ++ closesB (1 + 1) from rfl,
    onePass_nested 1, if_neg (nested_ne 1)]
  show String.mk (if onePass (opensB 1 ++ closesB 1) = opensB 1 ++ closesB 1
      then opensB 1 ++ closesB 1 else emptyTagLoop 48 (onePass (opensB 1 ++ closesB 1))) = ""
  rw [show (opensB 1 ++ closesB 1 : List Char) = opensB (0 + 1) ++ closesB (0 + 1) from rfl,
    onePass_nested 0, if_neg (nested_ne 0)]
  rfl

/-- C8 counterexample: on 52 nested empty `b` elements the iteration cap is
hit while passes are still making changes, so a second application of
`remove_empty_tags` removes further tags: the pass is not idempotent. -/
theorem remove_empty_tags_not_idempotent :
    remove_empty_tags (remove_empty_tags (nestedB 52)) ≠ remove_empty_tags (nestedB 52) := by
  rw [remove_empty_tags_nested52, remove_empty_tags_nested2]
  decide

/-- Helper: the loop stops at a fixed point of its body. -/
theorem emptyTagLoop_of_fix (n : Nat) (t : List Char) (h : onePass t = t) :
    emptyTagLoop n t = t := by
  cases n with
  | zero => rfl
  | succ m => simp [emptyTagLoop, h]

/-- Helper: `onePassStr` is `onePass` on the character list. -/
theorem onePassStr_data (s : String) : (onePassStr s).data = onePass s.data := by
  unfold onePassStr
  generalize onePass s.data = X
  rfl

/-- C8 amended: whenever a single application of `remove_empty_tags`
reaches a fixed point of the while body within the 50-iteration cap, a
second application changes nothing; only inputs whose pass chain exceeds
the cap (such as more than 50 same-tag nested empty pairs) escape this. -/
theorem remove_empty_tags_idempotent_of_fixpoint (s : String)
    (h : onePassStr (remove_empty_tags s) = remove_empty_tags s) :
    remove_empty_tags (remove_empty_tags s) = remove_empty_tags s := by
  generalize remove_empty_tags s = y at h ⊢
  obtain ⟨l⟩ := y
  have h2 := congrArg String.data h
  rw [onePassStr_data] at h2
  rw [show ((⟨l⟩ : String).data) = l from rfl] at h2
  show String.mk (emptyTagLoop 50 l) = String.mk l
  rw [emptyTagLoop_of_fix 50 l h2]

/-- C8 amended, witness: on the empty string the fixed point is reached
immediately and `remove_empty_tags` is idempotent. -/
theorem remove_empty_tags_idempotent_of_fixpoint_witness :
    onePassStr (remove_empty_tags "") = remove_empty_tags "" ∧
    remove_empty_tags (remove_empty_tags "") = remove_empty_tags "" :=
  ⟨rfl, remove_empty_tags_idempotent_of_fixpoint "" rfl⟩

/-- C9 counterexample: a `body` closing tag standing alone on a line is
deleted by the orphan-closing-tag pass of `remove_empty_tags`, although
`body` is not in the removable list. -/
theorem body_close_tag_deleted : remove_empty_tags "</body>" = "" := by
  decide

/-- Helper: the pair pattern cannot match at a position whose first
character is not `<`. -/
theorem matchPair_none_of_head (t : String) {c : Char} (hc : ('<' == c) = false)
    (r : List Char) : matchPair t.data (c :: r) = none := by
  simp [matchPair, dropLit, litPrefix, hc]

/-- Helper: the pair pattern of any tag finds no match in `name ++ ['>']`
when `name` contains no `<`. -/
theorem append_gt_suffix_no_match (t : String) :
    ∀ (name : List Char), (∀ c ∈ name, c ≠ '<') →
      ∀ s₂, s₂ <:+ (name ++ ['>']) → matchPair t.data s₂ = none := by
  intro name
  induction name with
  | nil =>
    intro _ s₂ h
    simp only [List.nil_append] at h
    rcases List.suffix_cons_iff.mp h with rfl | h
    · exact matchPair_none_of_head t (by decide) _
    · rw [List.suffix_nil.mp h]
      rfl
  | cons c cs ih =>
    intro hname s₂ h
    rcases List.suffix_cons_iff.mp h with rfl | h
    · have hc : ('<' == c) = false := by
        have hcc := hname c (List.mem_cons_self c cs)
        simp [beq_eq_false_iff_ne]
        exact fun e => hcc e.symm
      exact matchPair_none_of_head t hc _
    · exact ih (fun x hx => hname x (List.mem_cons_of_mem c hx)) s₂ h

/-- Helper: the pair pattern of a tag whose name does not begin with `/`
finds no match anywhere in a lone closing tag `</name>`. -/
theorem lone_suffix_no_match (t : String)
    (h2 : ∀ r, litPrefix t.data ('/' :: r) = false)
    (name : List Char) (hname : ∀ c ∈ name, c ≠ '<') :
    ∀ s₂, s₂ <:+ ('<' :: '/' :: (name ++ ['>'])) → matchPair t.data s₂ = none := by
  intro s₂ h
  rcases List.suffix_cons_iff.mp h with rfl | h
  · simp [matchPair, dropLit, litPrefix, h2]
  rcases List.suffix_cons_iff.mp h with rfl | h
  · exact matchPair_none_of_head t (by decide) _
  exact append_gt_suffix_no_match t name hname s₂ h

/-- Helper: `subEmptyPair` of such a tag leaves a lone closing tag alone. -/
theorem subEmptyPair_id_lone (t : String)
    (h2 : ∀ r, litPrefix t.data ('/' :: r) = false)
    (name : List Char) (hname : ∀ c ∈ name, c ≠ '<') :
    subEmptyPair t ('<' :: '/' :: (name ++ ['>'])) = '<' :: '/' :: (name ++ ['>']) :=
  scanPair_eq_of_no_suffix_match _ _ _ (lone_suffix_no_match t h2 name hname)

/-- Helper: the whole per-tag substitution pass leaves a lone closing tag
`</name>` alone whenever `name` contains no `<`: no removable tag's name
begins with `/`. -/
theorem tagsFold_lone (name : List Char) (hname : ∀ c ∈ name, c ≠ '<') :
    removable_tags.foldl (fun acc t => subEmptyPair t acc) ('<' :: '/' :: (name ++ ['>']))
      = '<' :: '/' :: (name ++ ['>']) := by
  simp only [removable_tags, List.foldl_cons, List.foldl_nil]
  rw [subEmptyPair_id_lone "div" (fun r => rfl) name hname,
      subEmptyPair_id_lone "span" (fun r => rfl) name hname,
      subEmptyPair_id_lone "p" (fun r => rfl) name hname,
      subEmptyPair_id_lone "li" (fun r => rfl) name hname,
      subEmptyPair_id_lone "ul" (fun r => rfl) name hname,
      subEmptyPair_id_lone "ol" (fun r => rfl) name hname,
      subEmptyPair_id_lone "h1" (fun r => rfl) name hname,
      subEmptyPair_id_lone "h2" (fun r => rfl) name hname,
      subEmptyPair_id_lone "h3" (fun r => rfl) name hname,
      subEmptyPair_id_lone "h4" (fun r => rfl) name hname,
      subEmptyPair_id_lone "h5" (fun r => rfl) name hname,
      subEmptyPair_id_lone "h6" (fun r => rfl) name hname,
      subEmptyPair_id_lone "section" (fun r => rfl) name hname,
      subEmptyPair_id_lone "article" (fun r => rfl) name hname,
      subEmptyPair_id_lone "aside" (fun r => rfl) name hname,
      subEmptyPair_id_lone "main" (fun r => rfl) name hname,
      subEmptyPair_id_lone "figure" (fun r => rfl) name hname,
      subEmptyPair_id_lone "figcaption" (fun r => rfl) name hname,
      subEmptyPair_id_lone "strong" (fun r => rfl) name hname,
      subEmptyPair_id_lone "em" (fun r => rfl) name hname,
      subEmptyPair_id_lone "b" (fun r => rfl) name hname,
      subEmptyPair_id_lone "i" (fun r => rfl) name hname,
      subEmptyPair_id_lone "u" (fun r => rfl) name hname,
      subEmptyPair_id_lone "small" (fun r => rfl) name hname,
      subEmptyPair_id_lone "mark" (fun r => rfl) name hname,
      subEmptyPair_id_lone "del" (fun r => rfl) name hname,
      subEmptyPair_id_lone "ins" (fun r => rfl) name hname,
      subEmptyPair_id_lone "sub" (fun r => rfl) name hname,
      subEmptyPair_id_lone "sup" (fun r => rfl) name hname,
      subEmptyPair_id_lone "blockquote" (fun r => rfl) name hname,
      subEmptyPair_id_lone "pre" (fun r => rfl) name hname,
      subEmptyPair_id_lone "code" (fun r => rfl) name hname,
      subEmptyPair_id_lone "kbd" (fun r => rfl) name hname,
      subEmptyPair_id_lone "samp" (fun r => rfl) name hname,
      subEmptyPair_id_lone "var" (fun r => rfl) name hname,
      subEmptyPair_id_lone "abbr" (fun r => rfl) name hname,
      subEmptyPair_id_lone "address" (fun r => rfl) name hname,
      subEmptyPair_id_lone "cite" (fun r => rfl) name hname,
      subEmptyPair_id_lone "dfn" (fun r => rfl) name hname,
      subEmptyPair_id_lone "time" (fun r => rfl) name hname,
      subEmptyPair_id_lone "dd" (fun r => rfl) name hname,
      subEmptyPair_id_lone "dt" (fun r => rfl) name hname,
      subEmptyPair_id_lone "dl" (fun r => rfl) name hname]

/-- Helper: `[^>]+` takes exactly `name` from `name ++ ['>']` when `name`
contains no `>`. -/
theorem takeWhile_ne_gt :
    ∀ (name : List Char), (∀ c ∈ name, c ≠ '>') →
      (name ++ ['>']).takeWhile (fun c => c != '>') = name := by
  intro name
  induction name with
  | nil => intro _; rfl
  | cons c cs ih =>
    intro h
    have hc : (c != '>') = true := by
      have hcc := h c (List.mem_cons_self c cs)
      simp [hcc]
    have ih2 := ih (fun x hx => h x (List.mem_cons_of_mem c hx))
    simp [List.takeWhile_cons, hc, ih2]

/-- Helper: the orphan pattern matches a lone closing tag `</name>` whole,
for every nonempty `name` free of `>`; the match leaves nothing behind. -/
theorem matchOrphan_lone (name : List Char) (hne : name ≠ [])
    (hgt : ∀ c ∈ name, c ≠ '>') :
    matchOrphan ('<' :: '/' :: (name ++ ['>'])) = some ([], false) := by
  obtain ⟨c, cs, rfl⟩ := List.exists_cons_of_ne_nil hne
  have w1 : List.takeWhile pyIsSpace ('<' :: '/' :: (c :: cs ++ ['>'])) = [] := rfl
  have d1 : dropLit ['<', '/'] ('<' :: '/' :: (c :: cs ++ ['>'])) = some (c :: cs ++ ['>']) :=
    rfl
  have tw : (c :: cs ++ ['>']).takeWhile (fun x => x != '>') = c :: cs :=
    takeWhile_ne_gt (c :: cs) hgt
  have dl : (c :: cs ++ ['>']).drop (c :: cs).length = ['>'] := List.drop_left (c :: cs) ['>']
  have d2 : dropLit ['>'] ['>'] = some [] := rfl
  unfold matchOrphan
  simp only [w1, List.length_nil, List.drop_zero, d1, tw, List.isEmpty_cons,
    Bool.false_eq_true, if_false, dl, d2, List.takeWhile_nil, findDollar, endOrNl,
    if_true, List.drop_nil, List.take_nil]
  rfl

/-- Helper: the orphan scan returns the empty list on the empty list. -/
theorem scanOrphan_nil (fuel : Nat) (b : Bool) : scanOrphan fuel b [] = [] := by
  cases fuel with
  | zero => rfl
  | succ n => cases b <;> rfl

/-- Helper: one orphan-scan step at a `^` position consumes a whole match. -/
theorem scanOrphan_step_match (fuel : Nat) (s rest : List Char) (b : Bool)
    (h : matchOrphan s = some (rest, b)) :
    scanOrphan (fuel + 1) true s = scanOrphan fuel b rest := by
  simp [scanOrphan, h]

/-- Helper: the orphan pass erases a lone closing tag entirely. -/
theorem subOrphan_lone (name : List Char) (hne : name ≠ [])
    (hgt : ∀ c ∈ name, c ≠ '>') :
    subOrphan ('<' :: '/' :: (name ++ ['>'])) = [] := by
  show scanOrphan (((name ++ ['>']).length + 1) + 1) true ('<' :: '/' :: (name ++ ['>'])) = []
  rw [scanOrphan_step_match _ _ [] false (matchOrphan_lone name hne hgt)]
  exact scanOrphan_nil _ _

/-- Helper: one `while`-body pass erases a lone closing tag entirely. -/
theorem onePass_lone (name : List Char) (hne : name ≠ [])
    (h : ∀ c ∈ name, c ≠ '<' ∧ c ≠ '>') :
    onePass ('<' :: '/' :: (name ++ ['>'])) = [] := by
  unfold onePass
  rw [tagsFold_lone name (fun c hc => (h c hc).1)]
  exact subOrphan_lone name hne (fun c hc => (h c hc).2)

/-- Helper: `remove_empty_tags` erases every lone closing tag `</name>`,
whatever the nonempty angle-bracket-free name. -/
theorem remove_empty_tags_lone (name : List Char) (hne : name ≠ [])
    (h : ∀ c ∈ name, c ≠ '<' ∧ c ≠ '>') :
    remove_empty_tags ⟨'<' :: '/' :: (name ++ ['>'])⟩ = "" := by
  show String.mk (emptyTagLoop 50 ('<' :: '/' :: (name ++ ['>']))) = ""
  show String.mk
      (if onePass ('<' :: '/' :: (name ++ ['>'])) = '<' :: '/' :: (name ++ ['>'])
       then '<' :: '/' :: (name ++ ['>'])
       else emptyTagLoop 49 (onePass ('<' :: '/' :: (name ++ ['>'])))) = ""
  rw [onePass_lone name hne h, if_neg (by simp), emptyTagLoop_of_fix 49 [] rfl]

/-- C9 amended: the empty-pair substitution matches only tags drawn from
the fixed removable list, which excludes `html`, `head` and `body` — the
string of adjacent exactly-empty structural pairs
`<html></html><head></head><body></body>` is left unchanged — but the
orphan-closing-tag pass deletes a lone closing tag whatever its name: for
every nonempty tag name containing no angle bracket, `remove_empty_tags`
erases the lone closing tag `</name>` to the empty string (in particular
`</html>`, `</head>` and `</body>`). -/
theorem structural_pairs_kept_lone_close_deleted :
    remove_empty_tags "<html></html><head></head><body></body>"
      = "<html></html><head></head><body></body>" ∧
    ∀ (name : List Char), name ≠ [] → (∀ c ∈ name, c ≠ '<' ∧ c ≠ '>') →
      remove_empty_tags ⟨'<' :: '/' :: (name ++ ['>'])⟩ = "" := by
  constructor
  · decide
  · exact fun name hne h => remove_empty_tags_lone name hne h

/-- C9 amended, witness: instantiating the universal part at the name
`html` erases the lone `</html>` closing tag. -/
theorem structural_pairs_kept_lone_close_deleted_witness :
    ("html".data ≠ [] ∧ ∀ c ∈ "html".data, c ≠ '<' ∧ c ≠ '>') ∧
    remove_empty_tags "</html>" = "" :=
  ⟨⟨by decide, by decide⟩,
   structural_pairs_kept_lone_close_deleted.2 "html".data (by decide) (by decide)⟩
